import Mathlib

/-!
# CapsCollective/blog : `assets/js/script.js`

A shallow embedding of the two functions of `script.js`, `openEmail` and
`httpGetAsJsonAsync`, together with the parts of the browser they talk to:
`window.location.href`, `XMLHttpRequest` and `JSON.parse`.

* Strings handed to the script by the browser (`url`, `responseText`, `href`)
  are Lean strings.  The strings *inside* a parsed JSON value are sequences of
  UTF-16 code units, as in ECMAScript, because a `\uXXXX` escape may denote a
  lone surrogate.
* A JSON number is kept as the exact decimal its literal denotes; rounding to
  binary64 is not modelled.
* The caller's `callback` is caller code: each invocation by the handler is
  recorded with its argument; the callback may change the navigation target
  and answers with its completion.
* Whether a URL parses is the browser's matter and is a parameter of the
  browser state.
-/

set_option linter.unusedTactic false
set_option exponentiation.threshold 2000

namespace Blog

/-! ## ECMAScript values -/

/-- A number as written in a JSON text: `(-1)^neg * mantissa * 10^exp10`. -/
structure JsNumber where
  neg : Bool
  mantissa : Nat
  exp10 : Int

/-- The ECMAScript values that occur in this program.  Strings are lists of
UTF-16 code units; an object is its list of own properties in creation order. -/
inductive JsValue where
  | undefined : JsValue
  | null : JsValue
  | bool (b : Bool) : JsValue
  | number (n : JsNumber) : JsValue
  | string (s : List Nat) : JsValue
  | array (xs : List JsValue) : JsValue
  | object (props : List (List Nat × JsValue)) : JsValue

/-- What a thrown exception is in this program: the `SyntaxError` of
`JSON.parse`, the `SyntaxError` and `InvalidStateError` `DOMException`s of
`XMLHttpRequest`, or whatever value the caller's callback throws. -/
inductive JsError where
  | syntaxError : JsError
  | domSyntaxError : JsError
  | invalidStateError : JsError
  | thrown (v : JsValue) : JsError

/-- How the evaluation of a function call ends: a normal return with a value
(`undefined` when the function has no `return value`), or a throw. -/
inductive Completion where
  | normal (v : JsValue) : Completion
  | throw (e : JsError) : Completion

/-- The `typeof` operator on the values above. -/
def typeof : JsValue → String
  | .undefined => "undefined"
  | .null => "object"
  | .bool _ => "boolean"
  | .number _ => "number"
  | .string _ => "string"
  | .array _ => "object"
  | .object _ => "object"

/-! ## `JSON.parse` (ECMA-262 `JSON.parse` without reviver, ECMA-404 grammar) -/

/-- UTF-16 code units of one code point. -/
def utf16Char (c : Char) : List Nat :=
  if c.toNat < 0x10000 then [c.toNat]
  else [0xD800 + (c.toNat - 0x10000) / 0x400, 0xDC00 + (c.toNat - 0x10000) % 0x400]

/-- UTF-16 code units of a string. -/
def utf16 : List Char → List Nat
  | [] => []
  | c :: cs => utf16Char c ++ utf16 cs

/-- JSON white space: tab, line feed, carriage return, space. -/
def isWs (c : Nat) : Bool := c = 0x09 || c = 0x0A || c = 0x0D || c = 0x20

/-- Drop leading JSON white space. -/
def skipWs : List Nat → List Nat
  | [] => []
  | c :: cs => if isWs c then skipWs cs else c :: cs

/-- Decimal digit `0`..`9`. -/
def isDigit (c : Nat) : Bool := 0x30 ≤ c && c ≤ 0x39

/-- Value of a hexadecimal digit, either case. -/
def hexVal (c : Nat) : Option Nat :=
  if 0x30 ≤ c && c ≤ 0x39 then some (c - 0x30)
  else if 0x41 ≤ c && c ≤ 0x46 then some (c - 0x41 + 10)
  else if 0x61 ≤ c && c ≤ 0x66 then some (c - 0x61 + 10)
  else none

/-- The code unit denoted by `\uXXXX`. -/
def hex4 (a b c d : Nat) : Option Nat :=
  match hexVal a, hexVal b, hexVal c, hexVal d with
  | some x, some y, some z, some w => some (((x * 16 + y) * 16 + z) * 16 + w)
  | _, _, _, _ => none

/-- The code unit denoted by a single-character escape `\c`. -/
def simpleEscape (c : Nat) : Option Nat :=
  if c = 0x22 then some 0x22        -- \"
  else if c = 0x5C then some 0x5C   -- \\
  else if c = 0x2F then some 0x2F   -- \/
  else if c = 0x62 then some 0x08   -- \b
  else if c = 0x66 then some 0x0C   -- \f
  else if c = 0x6E then some 0x0A   -- \n
  else if c = 0x72 then some 0x0D   -- \r
  else if c = 0x74 then some 0x09   -- \t
  else none

/-- The characters of a JSON string after its opening quote, up to and
including the closing quote: the decoded code units (appended to `acc`) and the
input left over.  `none` when the string is malformed or unterminated. -/
def parseStringBody : List Nat → List Nat → Option (List Nat × List Nat)
  | [], _ => none
  | c :: cs, acc =>
    if c = 0x22 then some (acc, cs)
    else if c = 0x5C then
      match cs with
      | [] => none
      | e :: es =>
        if e = 0x75 then
          match es with
          | a :: b :: c' :: d :: rest =>
            match hex4 a b c' d with
            | some u => parseStringBody rest (acc ++ [u])
            | none => none
          | _ => none
        else
          match simpleEscape e with
          | some u => parseStringBody es (acc ++ [u])
          | none => none
    else if c < 0x20 then none
    else parseStringBody cs (acc ++ [c])

/-- Leading decimal digits of the input read as a number (continuing `acc`),
how many there were, and the input left over. -/
def takeDigits : List Nat → Nat → Nat → Nat × Nat × List Nat
  | [], acc, n => (acc, n, [])
  | c :: cs, acc, n =>
    if isDigit c then takeDigits cs (acc * 10 + (c - 0x30)) (n + 1) else (acc, n, c :: cs)

/-- The integer part of a JSON number: `0`, or a non-zero digit followed by
digits. -/
def parseInt : List Nat → Option (Nat × List Nat)
  | [] => none
  | c :: cs =>
    if c = 0x30 then some (0, cs)
    else if isDigit c then
      match takeDigits cs (c - 0x30) 1 with
      | (m, _, rest) => some (m, rest)
    else none

/-- The optional fraction `.digits` of a JSON number, continuing the mantissa
`m`: the new mantissa, the number of fraction digits, and the rest. -/
def parseFrac (m : Nat) : List Nat → Option (Nat × Nat × List Nat)
  | [] => some (m, 0, [])
  | c :: cs =>
    if c = 0x2E then
      match takeDigits cs m 0 with
      | (m', k, rest) => if k = 0 then none else some (m', k, rest)
    else some (m, 0, c :: cs)

/-- The optional exponent `e[+-]digits` of a JSON number. -/
def parseExp : List Nat → Option (Int × List Nat)
  | [] => some (0, [])
  | c :: cs =>
    if c = 0x65 || c = 0x45 then
      match cs with
      | [] => none
      | s :: ss =>
        if s = 0x2D then
          match takeDigits ss 0 0 with
          | (e, k, rest) => if k = 0 then none else some (-(e : Int), rest)
        else if s = 0x2B then
          match takeDigits ss 0 0 with
          | (e, k, rest) => if k = 0 then none else some ((e : Int), rest)
        else
          match takeDigits (s :: ss) 0 0 with
          | (e, k, rest) => if k = 0 then none else some ((e : Int), rest)
    else some (0, c :: cs)

/-- An unsigned JSON number. -/
def parseUnsigned (neg : Bool) (input : List Nat) : Option (JsNumber × List Nat) :=
  match parseInt input with
  | none => none
  | some (m, r1) =>
    match parseFrac m r1 with
    | none => none
    | some (m', k, r2) =>
      match parseExp r2 with
      | none => none
      | some (e, r3) => some (⟨neg, m', e - (k : Int)⟩, r3)

/-- A JSON number: optional minus sign, integer part, fraction, exponent. -/
def parseNumber : List Nat → Option (JsNumber × List Nat)
  | [] => none
  | c :: cs => if c = 0x2D then parseUnsigned true cs else parseUnsigned false (c :: cs)

/-- The rest of the input after the literal `lit`, if the input starts with it. -/
def dropLit : List Nat → List Nat → Option (List Nat)
  | [], input => some input
  | _ :: _, [] => none
  | l :: ls, c :: cs => if l = c then dropLit ls cs else none

/-- Define the own property `k` of an object under construction: a duplicate
key keeps its place and takes the later value. -/
def setProp : List (List Nat × JsValue) → List Nat → JsValue → List (List Nat × JsValue)
  | [], k, v => [(k, v)]
  | (k', v') :: ps, k, v => if k' = k then (k', v) :: ps else (k', v') :: setProp ps k v

/-- Result of the recursive-descent parser: a value and the input left over, a
syntax error, or recursion budget exhausted. -/
inductive PResult where
  | ok (v : JsValue) (rest : List Nat) : PResult
  | fail : PResult
  | starved : PResult

/-- What the parser is reading: one value; the elements of an array after
`[` (those read so far in `acc`); the members of an object after `{`. -/
inductive Goal where
  | value : Goal
  | elements (acc : List JsValue) : Goal
  | members (acc : List (List Nat × JsValue)) : Goal

/-- Recursive descent over the JSON grammar; the first argument bounds the
recursion depth. -/
def parseJson : Nat → Goal → List Nat → PResult
  | 0, _, _ => .starved
  | fuel + 1, .value, input =>
    match skipWs input with
    | [] => .fail
    | c :: cs =>
      if c = 0x22 then
        match parseStringBody cs [] with
        | some (s, rest) => .ok (.string s) rest
        | none => .fail
      else if c = 0x5B then
        match skipWs cs with
        | [] => .fail
        | d :: ds => if d = 0x5D then .ok (.array []) ds else parseJson fuel (.elements []) (d :: ds)
      else if c = 0x7B then
        match skipWs cs with
        | [] => .fail
        | d :: ds => if d = 0x7D then .ok (.object []) ds else parseJson fuel (.members []) (d :: ds)
      else if c = 0x74 then
        match dropLit [0x72, 0x75, 0x65] cs with
        | some rest => .ok (.bool true) rest
        | none => .fail
      else if c = 0x66 then
        match dropLit [0x61, 0x6C, 0x73, 0x65] cs with
        | some rest => .ok (.bool false) rest
        | none => .fail
      else if c = 0x6E then
        match dropLit [0x75, 0x6C, 0x6C] cs with
        | some rest => .ok .null rest
        | none => .fail
      else
        match parseNumber (c :: cs) with
        | some (n, rest) => .ok (.number n) rest
        | none => .fail
  | fuel + 1, .elements acc, input =>
    match parseJson fuel .value input with
    | .ok v rest =>
      match skipWs rest with
      | [] => .fail
      | d :: ds =>
        if d = 0x2C then parseJson fuel (.elements (acc ++ [v])) ds
        else if d = 0x5D then .ok (.array (acc ++ [v])) ds
        else .fail
    | .fail => .fail
    | .starved => .starved
  | fuel + 1, .members acc, input =>
    match skipWs input with
    | [] => .fail
    | q :: qs =>
      if q = 0x22 then
        match parseStringBody qs [] with
        | none => .fail
        | some (k, r1) =>
          match skipWs r1 with
          | [] => .fail
          | c :: cs =>
            if c = 0x3A then
              match parseJson fuel .value cs with
              | .ok v rest =>
                match skipWs rest with
                | [] => .fail
                | d :: ds =>
                  if d = 0x2C then parseJson fuel (.members (setProp acc k v)) ds
                  else if d = 0x7D then .ok (.object (setProp acc k v)) ds
                  else .fail
              | .fail => .fail
              | .starved => .starved
            else .fail
      else .fail

/-- Recursion depth `parseJson` needs for a goal on an input of length `n`. -/
def Goal.need : Goal → Nat → Nat
  | .value, n => 2 * n + 1
  | .elements _, n => 2 * n + 2
  | .members _, n => 2 * n + 2

/-- Recursion budget that `parseJson` never exhausts on an input of length `n`
(see `parseJson_not_starved`); an exhausted budget is passed up unchanged, so a
run that does not end `starved` has made every recursive call in full. -/
def budget (n : Nat) : Nat := 2 * n + 2

/-- The builtin `JSON.parse(text)`: the value of the JSON text, or a
`SyntaxError` when `text` is not exactly one JSON value surrounded by optional
white space. -/
def JSON_parse (text : String) : Except JsError JsValue :=
  match parseJson (budget (utf16 text.toList).length) .value (utf16 text.toList) with
  | .ok v rest =>
    match skipWs rest with
    | [] => .ok v
    | _ :: _ => .error .syntaxError
  | .fail => .error .syntaxError
  | .starved => .error .syntaxError

/-! ## The browser as seen by `script.js` -/

/-- The caller's callback: caller code the handler runs.  Given its argument
and the navigation target it finds, it leaves a navigation target (the same or
another) and completes normally or throws.  The records `Browser.parses` and
`Browser.calls` are kept by the model about the handler and are out of its
reach. -/
abbrev Callback := JsValue → String → String × Completion

/-- The function object made by the function expression at `script.js:9-17`.
Its code is `Handler.call`; its environment is the captured `callback` (the
captured `xmlHttp` is the object the function is installed on). -/
structure Handler where
  callback : Callback

/-- A request-side call made on an `XMLHttpRequest`. -/
inductive XhrCall where
  | open (method url : String) (async : Bool) : XhrCall
  | setRequestHeader (name value : String) : XhrCall
  | send (body : Option String) : XhrCall

/-- An `XMLHttpRequest` object: the handler property, the response attributes
the handler reads, the request-side calls that took effect on it, in order,
and the `send()` flag. -/
structure XMLHttpRequest where
  onreadystatechange : Option Handler
  readyState : Nat
  status : Nat
  responseText : String
  requestCalls : List XhrCall
  sendFlag : Bool

/-- The browser state the script can touch or cause to change. -/
structure Browser where
  /-- The navigation target `window.location.href` -/
  href : String
  /-- The `XMLHttpRequest` objects created so far; a reference is an index -/
  xhrs : List XMLHttpRequest
  /-- The texts handed to `JSON.parse` by a handler so far -/
  parses : List String
  /-- The arguments of the callback invocations made by a handler so far -/
  calls : List JsValue
  /-- Whether the browser's URL parser accepts a string as a URL (against the
  base URL of the document); the parser is the browser's and is not given
  here -/
  parsesUrl : String → Bool

/-- The object `new XMLHttpRequest()` yields: state UNSENT, nothing recorded. -/
def XMLHttpRequest.new : XMLHttpRequest :=
  { onreadystatechange := none, readyState := 0, status := 0, responseText := "",
    requestCalls := [], sendFlag := false }

/-- Body of the `onreadystatechange` handler, `script.js:9-17`. -/
def Handler.call (h : Handler) (xmlHttp : XMLHttpRequest) (w : Browser) : Browser × Completion :=
  if xmlHttp.readyState = 4 ∧ xmlHttp.status = 200 then
    let w := { w with parses := w.parses ++ [xmlHttp.responseText] }
    match JSON_parse xmlHttp.responseText with
    | .error e => (w, .throw e)
    | .ok responseJson =>
      if typeof responseJson = "undefined" then
        (w, .normal .undefined)
      else
        let w := { w with calls := w.calls ++ [responseJson] }
        match h.callback responseJson w.href with
        | (href, .normal _) => ({ w with href := href }, .normal .undefined)
        | (href, .throw e) => ({ w with href := href }, .throw e)
  else (w, .normal .undefined)

/-- Fire a `readystatechange` event at object `i`: run its handler, if it has
one, and report how the handler completed. -/
def Browser.fire (w : Browser) (i : Nat) : Browser × Completion :=
  match w.xhrs[i]? with
  | none => (w, .normal .undefined)
  | some x =>
    match x.onreadystatechange with
    | none => (w, .normal .undefined)
    | some h => h.call x w

/-- Replace object `i`. -/
def Browser.store (w : Browser) (i : Nat) (x : XMLHttpRequest) : Browser :=
  { w with xhrs := w.xhrs.set i x }

/-- The assignment `xmlHttp.onreadystatechange = f`. -/
def Browser.setOnreadystatechange (w : Browser) (i : Nat) (f : Handler) : Browser :=
  match w.xhrs[i]? with
  | none => w
  | some x => w.store i { x with onreadystatechange := some f }

/-- The call `xmlHttp.open(method, url, async)`.  A URL the browser's parser
rejects makes it throw a `SyntaxError` `DOMException` and changes nothing.
Otherwise the call is recorded, the `send()` flag is cleared, and when the
state was not yet OPENED it becomes OPENED and a `readystatechange` event is
fired; an exception thrown by a handler is reported by the browser, not
rethrown here. -/
def Browser.xhrOpen (w : Browser) (i : Nat) (method url : String) (async : Bool) :
    Browser × Completion :=
  match w.xhrs[i]? with
  | none => (w, .normal .undefined)
  | some x =>
    if w.parsesUrl url = true then
      if x.readyState = 1 then
        (w.store i { x with requestCalls := x.requestCalls ++ [.open method url async],
                            sendFlag := false }, .normal .undefined)
      else
        (((w.store i { x with requestCalls := x.requestCalls ++ [.open method url async],
                              sendFlag := false, readyState := 1 }).fire i).1,
          .normal .undefined)
    else (w, .throw .domSyntaxError)

/-- The call `xmlHttp.send(body)`: it throws an `InvalidStateError`
`DOMException` unless the state is OPENED and the `send()` flag is clear;
otherwise the call is recorded and the flag set. -/
def Browser.xhrSend (w : Browser) (i : Nat) (body : Option String) : Browser × Completion :=
  match w.xhrs[i]? with
  | none => (w, .normal .undefined)
  | some x =>
    if x.readyState = 1 ∧ x.sendFlag = false then
      (w.store i { x with requestCalls := x.requestCalls ++ [.send body], sendFlag := true },
        .normal .undefined)
    else (w, .throw .invalidStateError)

/-- The network makes progress on request `i`: the response attributes change
and a `readystatechange` event is fired. -/
def Browser.readystatechange (w : Browser) (i readyState status : Nat) (responseText : String) :
    Browser × Completion :=
  match w.xhrs[i]? with
  | none => (w, .normal .undefined)
  | some x => (w.store i { x with readyState, status, responseText }).fire i

/-- A sequence of `readystatechange` events on request `i`, each given by its
`(readyState, status, responseText)`.  An exception thrown by a handler is
reported by the browser and does not stop later events. -/
def Browser.progress (w : Browser) (i : Nat) : List (Nat × Nat × String) → Browser
  | [] => w
  | (readyState, status, responseText) :: events =>
    Browser.progress (w.readystatechange i readyState status responseText).1 i events

/-- The operand of `if` and `!` as a boolean, negated: whether a value is
falsy.  A number is falsy when its Number value is `+0` or `-0`: the literal is
zero, or lies at or below `2^-1075`, half the least positive binary64 value,
and rounds to zero. -/
def falsy : JsValue → Bool
  | .undefined => true
  | .null => true
  | .bool b => !b
  | .number n =>
    n.mantissa = 0 || (n.exp10 < 0 && n.mantissa * 2 ^ 1075 ≤ 10 ^ (-n.exp10).toNat)
  | .string s => s.isEmpty
  | .array _ => false
  | .object _ => false

/-! ## The script -/

/-- Embedding of `function openEmail()`, `script.js:1-5`. -/
def openEmail (w : Browser) : Browser × Completion :=
  let email := "capscollective.com"
  let email := "devs" ++ "@" ++ email
  ({ w with href := "mailto:" ++ email }, .normal .undefined)

/-- Embedding of `function httpGetAsJsonAsync(url, callback)`, `script.js:7-20`. -/
def httpGetAsJsonAsync (url : String) (callback : Callback) (w : Browser) : Browser × Completion :=
  let xmlHttp := w.xhrs.length
  let w := { w with xhrs := w.xhrs ++ [XMLHttpRequest.new] }
  let w := w.setOnreadystatechange xmlHttp { callback := callback }
  match w.xhrOpen xmlHttp "GET" url true with
  | (w, .throw e) => (w, .throw e)
  | (w, .normal _) =>
    match w.xhrSend xmlHttp none with
    | (w, .throw e) => (w, .throw e)
    | (w, .normal _) => (w, .normal .undefined)

/-- The object `httpGetAsJsonAsync` leaves behind: the handler it installed,
the request-side calls that took effect and the `send()` flag, with the
response attributes the network has given it. -/
def createdXhr (callback : Callback) (requestCalls : List XhrCall) (sendFlag : Bool)
    (readyState status : Nat) (responseText : String) : XMLHttpRequest :=
  { onreadystatechange := some { callback := callback }, readyState := readyState,
    status := status, responseText := responseText,
    requestCalls := requestCalls, sendFlag := sendFlag }

/-- A callback that does what `openEmail` does to the navigation target. -/
def redirectingCallback : Callback :=
  fun _ _ => ("mailto:devs@capscollective.com", .normal .undefined)

/-- A callback that returns at once. -/
def idleCallback : Callback := fun _ href => (href, .normal .undefined)

/-- A browser with no request made yet, whose URL parser rejects exactly the
string `http://[` (an unterminated IPv6 host). -/
def blankBrowser : Browser :=
  { href := "about:blank", xhrs := [], parses := [], calls := [],
    parsesUrl := fun u => u != "http://[" }

/-! ## Facts about the JSON parser -/

theorem skipWs_length_le (l : List Nat) : (skipWs l).length ≤ l.length := by
  induction l with
  | nil => simp [skipWs]
  | cons c cs ih =>
    unfold skipWs
    split
    · exact Nat.le_succ_of_le ih
    · exact Nat.le_refl _

theorem parseStringBody_length_lt_aux (n : Nat) :
    ∀ (input acc s rest : List Nat), input.length ≤ n →
      parseStringBody input acc = some (s, rest) → rest.length < input.length := by
  induction n with
  | zero =>
    intro input acc s rest hl h
    cases input with
    | nil => simp [parseStringBody] at h
    | cons c cs => simp at hl
  | succ n ih =>
    intro input acc s rest hl h
    cases input with
    | nil => simp [parseStringBody] at h
    | cons c cs =>
      unfold parseStringBody at h
      repeat' split at h
      all_goals first
        | (simp at h; done)
        | (cases h; simp)
        | (have h2 := ih _ _ _ _ (by simp at hl ⊢; omega) h; simp at h2 ⊢; omega)

theorem parseStringBody_length_lt (input acc s rest : List Nat)
    (h : parseStringBody input acc = some (s, rest)) : rest.length < input.length :=
  parseStringBody_length_lt_aux input.length input acc s rest (Nat.le_refl _) h

theorem takeDigits_length_le (input : List Nat) (acc n : Nat) :
    (takeDigits input acc n).2.2.length ≤ input.length := by
  induction input generalizing acc n with
  | nil => simp [takeDigits]
  | cons c cs ih =>
    unfold takeDigits
    split
    · exact Nat.le_succ_of_le (ih _ _)
    · exact Nat.le_refl _

theorem dropLit_length_le (lit input rest : List Nat) (h : dropLit lit input = some rest) :
    rest.length ≤ input.length := by
  induction lit generalizing input with
  | nil => simp [dropLit] at h; simp [h]
  | cons l ls ih =>
    cases input with
    | nil => simp [dropLit] at h
    | cons c cs =>
      simp only [dropLit] at h
      split at h
      · exact Nat.le_succ_of_le (ih _ h)
      · simp at h

theorem parseInt_length_lt (input rest : List Nat) (m : Nat)
    (h : parseInt input = some (m, rest)) : rest.length < input.length := by
  cases input with
  | nil => simp [parseInt] at h
  | cons c cs =>
    have h2 := takeDigits_length_le cs (c - 0x30) 1
    rw [parseInt] at h
    rcases hte : takeDigits cs (c - 0x30) 1 with ⟨m1, k1, r1⟩
    rw [hte] at h h2
    simp only at h
    repeat' split at h
    all_goals first
      | (simp at h; done)
      | (simp at h; obtain ⟨-, rfl⟩ := h; simp at h2 ⊢; omega)
      | (simp at h; obtain ⟨-, rfl⟩ := h; simp)

theorem parseFrac_length_le (m : Nat) (input rest : List Nat) (m' k : Nat)
    (h : parseFrac m input = some (m', k, rest)) : rest.length ≤ input.length := by
  cases input with
  | nil => simp [parseFrac] at h; simp [h]
  | cons c cs =>
    have h2 := takeDigits_length_le cs m 0
    rw [parseFrac] at h
    rcases hte : takeDigits cs m 0 with ⟨m1, k1, r1⟩
    rw [hte] at h h2
    simp only at h
    repeat' split at h
    all_goals first
      | (simp at h; done)
      | (simp at h; obtain ⟨-, -, rfl⟩ := h; simp at h2 ⊢; omega)
      | (simp at h; obtain ⟨-, -, rfl⟩ := h; simp)

theorem parseExp_length_le (input rest : List Nat) (e : Int)
    (h : parseExp input = some (e, rest)) : rest.length ≤ input.length := by
  cases input with
  | nil => simp [parseExp] at h; simp [h]
  | cons c cs =>
    rw [parseExp.eq_def] at h
    simp only at h
    split at h
    · cases cs with
      | nil => simp at h
      | cons s ss =>
        have h2 := takeDigits_length_le ss 0 0
        have h3 := takeDigits_length_le (s :: ss) 0 0
        rcases hte : takeDigits ss 0 0 with ⟨m1, k1, r1⟩
        rcases hte2 : takeDigits (s :: ss) 0 0 with ⟨m2, k2, r2⟩
        rw [hte] at h2
        rw [hte2] at h3
        simp only [hte, hte2] at h
        repeat' split at h
        all_goals first
          | (simp at h; done)
          | (simp at h; obtain ⟨-, rfl⟩ := h; simp at h2 h3 ⊢; omega)
    · simp at h; obtain ⟨-, rfl⟩ := h; simp

theorem parseUnsigned_length_lt (neg : Bool) (input rest : List Nat) (x : JsNumber)
    (h : parseUnsigned neg input = some (x, rest)) : rest.length < input.length := by
  unfold parseUnsigned at h
  split at h
  · simp at h
  · rename_i m r1 h1
    split at h
    · simp at h
    · rename_i m' k r2 h2
      split at h
      · simp at h
      · rename_i e r3 h3
        cases h
        have a1 := parseInt_length_lt _ _ _ h1
        have a2 := parseFrac_length_le _ _ _ _ _ h2
        have a3 := parseExp_length_le _ _ _ h3
        omega

theorem parseNumber_length_lt (input rest : List Nat) (x : JsNumber)
    (h : parseNumber input = some (x, rest)) : rest.length < input.length := by
  cases input with
  | nil => simp [parseNumber] at h
  | cons c cs =>
    simp only [parseNumber] at h
    split at h
    · have := parseUnsigned_length_lt _ _ _ _ h
      simp; omega
    · exact parseUnsigned_length_lt _ _ _ _ h

theorem parseJson_defined :
    ∀ (fuel : Nat) (goal : Goal) (input : List Nat) (v : JsValue) (rest : List Nat),
      parseJson fuel goal input = .ok v rest → v ≠ .undefined := by
  intro fuel
  induction fuel with
  | zero => intro goal input v rest h; simp [parseJson] at h
  | succ n ih =>
    intro goal input v rest h
    cases goal <;>
    · simp only [parseJson] at h
      repeat' split at h
      all_goals first
        | (cases h; simp)
        | exact ih _ _ _ _ h
        | simp at h

theorem parseJson_length_lt :
    ∀ (fuel : Nat) (goal : Goal) (input : List Nat) (v : JsValue) (rest : List Nat),
      parseJson fuel goal input = .ok v rest → rest.length < input.length := by
  intro fuel
  induction fuel with
  | zero => intro goal input v rest h; simp [parseJson] at h
  | succ n ih =>
    intro goal input v rest h
    have hs := skipWs_length_le input
    cases goal with
    | value =>
      simp only [parseJson] at h
      rcases hsk : skipWs input with _ | ⟨c, cs⟩
      · rw [hsk] at h; simp at h
      · rw [hsk] at h hs
        simp only [List.length_cons] at hs
        simp only at h
        have hs2 := skipWs_length_le cs
        split at h
        · rcases hp : parseStringBody cs [] with _ | ⟨s, r⟩
          · rw [hp] at h; simp at h
          · rw [hp] at h
            simp only [PResult.ok.injEq] at h
            obtain ⟨-, rfl⟩ := h
            have := parseStringBody_length_lt _ _ _ _ hp
            omega
        · split at h
          · rcases hsk2 : skipWs cs with _ | ⟨d, ds⟩
            · rw [hsk2] at h; simp at h
            · rw [hsk2] at h hs2
              simp only [List.length_cons] at hs2
              simp only at h
              split at h
              · simp only [PResult.ok.injEq] at h
                obtain ⟨-, rfl⟩ := h
                omega
              · have := ih _ _ _ _ h
                simp only [List.length_cons] at this
                omega
          · split at h
            · rcases hsk2 : skipWs cs with _ | ⟨d, ds⟩
              · rw [hsk2] at h; simp at h
              · rw [hsk2] at h hs2
                simp only [List.length_cons] at hs2
                simp only at h
                split at h
                · simp only [PResult.ok.injEq] at h
                  obtain ⟨-, rfl⟩ := h
                  omega
                · have := ih _ _ _ _ h
                  simp only [List.length_cons] at this
                  omega
            · split at h
              · rcases hd : dropLit [0x72, 0x75, 0x65] cs with _ | r
                · rw [hd] at h; simp at h
                · rw [hd] at h
                  simp only [PResult.ok.injEq] at h
                  obtain ⟨-, rfl⟩ := h
                  have := dropLit_length_le _ _ _ hd
                  omega
              · split at h
                · rcases hd : dropLit [0x61, 0x6C, 0x73, 0x65] cs with _ | r
                  · rw [hd] at h; simp at h
                  · rw [hd] at h
                    simp only [PResult.ok.injEq] at h
                    obtain ⟨-, rfl⟩ := h
                    have := dropLit_length_le _ _ _ hd
                    omega
                · split at h
                  · rcases hd : dropLit [0x75, 0x6C, 0x6C] cs with _ | r
                    · rw [hd] at h; simp at h
                    · rw [hd] at h
                      simp only [PResult.ok.injEq] at h
                      obtain ⟨-, rfl⟩ := h
                      have := dropLit_length_le _ _ _ hd
                      omega
                  · rcases hn : parseNumber (c :: cs) with _ | ⟨x, r⟩
                    · rw [hn] at h; simp at h
                    · rw [hn] at h
                      simp only [PResult.ok.injEq] at h
                      obtain ⟨-, rfl⟩ := h
                      have := parseNumber_length_lt _ _ _ hn
                      simp only [List.length_cons] at this
                      omega
    | elements acc =>
      simp only [parseJson] at h
      rcases hv : parseJson n .value input with ⟨x, r⟩ | _ | _
      · rw [hv] at h
        simp only at h
        have h1 := ih _ _ _ _ hv
        have hs2 := skipWs_length_le r
        rcases hsk : skipWs r with _ | ⟨d, ds⟩
        · rw [hsk] at h; simp at h
        · rw [hsk] at h hs2
          simp only [List.length_cons] at hs2
          simp only at h
          split at h
          · have := ih _ _ _ _ h
            omega
          · split at h
            · simp only [PResult.ok.injEq] at h
              obtain ⟨-, rfl⟩ := h
              omega
            · simp at h
      · rw [hv] at h; simp at h
      · rw [hv] at h; simp at h
    | members acc =>
      simp only [parseJson] at h
      rcases hsk : skipWs input with _ | ⟨q, qs⟩
      · rw [hsk] at h; simp at h
      · rw [hsk] at h hs
        simp only [List.length_cons] at hs
        simp only at h
        split at h
        · rcases hp : parseStringBody qs [] with _ | ⟨k, r1⟩
          · rw [hp] at h; simp at h
          · rw [hp] at h
            simp only at h
            have h1 := parseStringBody_length_lt _ _ _ _ hp
            have hs1 := skipWs_length_le r1
            rcases hsk1 : skipWs r1 with _ | ⟨c, cs⟩
            · rw [hsk1] at h; simp at h
            · rw [hsk1] at h hs1
              simp only [List.length_cons] at hs1
              simp only at h
              split at h
              · rcases hv : parseJson n .value cs with ⟨x, r⟩ | _ | _
                · rw [hv] at h
                  simp only at h
                  have h2 := ih _ _ _ _ hv
                  have hs2 := skipWs_length_le r
                  rcases hsk2 : skipWs r with _ | ⟨d, ds⟩
                  · rw [hsk2] at h; simp at h
                  · rw [hsk2] at h hs2
                    simp only [List.length_cons] at hs2
                    simp only at h
                    split at h
                    · have := ih _ _ _ _ h
                      omega
                    · split at h
                      · simp only [PResult.ok.injEq] at h
                        obtain ⟨-, rfl⟩ := h
                        omega
                      · simp at h
                · rw [hv] at h; simp at h
                · rw [hv] at h; simp at h
              · simp at h
        · simp at h

theorem parseJson_enough :
    ∀ (fuel : Nat) (goal : Goal) (input : List Nat),
      goal.need input.length ≤ fuel → parseJson fuel goal input ≠ .starved := by
  intro fuel
  induction fuel with
  | zero =>
    intro goal input hb
    cases goal <;> simp [Goal.need] at hb
  | succ n ih =>
    intro goal input hb h
    have hs := skipWs_length_le input
    cases goal with
    | value =>
      simp only [Goal.need] at hb
      simp only [parseJson] at h
      rcases hsk : skipWs input with _ | ⟨c, cs⟩
      · rw [hsk] at h; simp at h
      · rw [hsk] at h hs
        simp only [List.length_cons] at hs
        simp only at h
        have hs2 := skipWs_length_le cs
        have container : ∀ g : Goal, (∀ m, g.need m = 2 * m + 2) →
            ∀ d ds, skipWs cs = d :: ds → parseJson n g (d :: ds) ≠ .starved := by
          intro g hg d ds hsk2
          apply ih
          rw [hg]
          rw [hsk2] at hs2
          simp only [List.length_cons] at hs2 ⊢
          omega
        repeat' split at h
        all_goals first
          | (simp at h; done)
          | exact container (.elements []) (fun _ => rfl) _ _ (by assumption) h
          | exact container (.members []) (fun _ => rfl) _ _ (by assumption) h
    | elements acc =>
      simp only [Goal.need] at hb
      simp only [parseJson] at h
      rcases hv : parseJson n .value input with ⟨x, r⟩ | _ | _
      · rw [hv] at h
        simp only at h
        have h1 := parseJson_length_lt _ _ _ _ _ hv
        have hs2 := skipWs_length_le r
        rcases hsk : skipWs r with _ | ⟨d, ds⟩
        · rw [hsk] at h; simp at h
        · rw [hsk] at h hs2
          simp only [List.length_cons] at hs2
          simp only at h
          split at h
          · refine ih (.elements (acc ++ [x])) ds ?_ h
            simp only [Goal.need]
            omega
          · split at h <;> simp at h
      · rw [hv] at h; simp at h
      · exact ih .value input (by simp only [Goal.need]; omega) hv
    | members acc =>
      simp only [Goal.need] at hb
      simp only [parseJson] at h
      rcases hsk : skipWs input with _ | ⟨q, qs⟩
      · rw [hsk] at h; simp at h
      · rw [hsk] at h hs
        simp only [List.length_cons] at hs
        simp only at h
        split at h
        · rcases hp : parseStringBody qs [] with _ | ⟨k, r1⟩
          · rw [hp] at h; simp at h
          · rw [hp] at h
            simp only at h
            have h1 := parseStringBody_length_lt _ _ _ _ hp
            have hs1 := skipWs_length_le r1
            rcases hsk1 : skipWs r1 with _ | ⟨c, cs⟩
            · rw [hsk1] at h; simp at h
            · rw [hsk1] at h hs1
              simp only [List.length_cons] at hs1
              simp only at h
              split at h
              · rcases hv : parseJson n .value cs with ⟨x, r⟩ | _ | _
                · rw [hv] at h
                  simp only at h
                  have h2 := parseJson_length_lt _ _ _ _ _ hv
                  have hs2 := skipWs_length_le r
                  rcases hsk2 : skipWs r with _ | ⟨d, ds⟩
                  · rw [hsk2] at h; simp at h
                  · rw [hsk2] at h hs2
                    simp only [List.length_cons] at hs2
                    simp only at h
                    split at h
                    · refine ih (.members (setProp acc k x)) ds ?_ h
                      simp only [Goal.need]
                      omega
                    · split at h <;> simp at h
                · rw [hv] at h; simp at h
                · exact ih .value cs (by simp only [Goal.need]; omega) hv
              · simp at h
        · simp at h

/-- The budget `JSON_parse` gives `parseJson` is never exhausted. -/
theorem parseJson_not_starved (input : List Nat) :
    parseJson (budget input.length) .value input ≠ .starved :=
  parseJson_enough _ _ _ (by simp only [Goal.need, budget]; omega)

/-! ## Facts about the browser model -/

theorem typeof_undefined_iff (v : JsValue) : typeof v = "undefined" ↔ v = .undefined := by
  cases v <;> simp [typeof]

/-- `JSON.parse` never returns `undefined`. -/
theorem JSON_parse_defined (text : String) (v : JsValue) (h : JSON_parse text = .ok v) :
    typeof v ≠ "undefined" := by
  rw [Ne, typeof_undefined_iff]
  unfold JSON_parse at h
  split at h
  · rename_i v' rest hp
    split at h
    · cases h
      exact parseJson_defined _ _ _ _ _ hp
    · simp at h
  · simp at h
  · simp at h

/-- `JSON.parse` fails with a `SyntaxError` and nothing else. -/
theorem JSON_parse_error (text : String) (e : JsError) (h : JSON_parse text = .error e) :
    e = .syntaxError := by
  unfold JSON_parse at h
  repeat' split at h
  all_goals first
    | (cases h; rfl)
    | (simp at h; done)

/-- With a URL the browser accepts, `httpGetAsJsonAsync` leaves one new object
on which `open` and then `send` took effect, and returns. -/
theorem httpGetAsJsonAsync_eq (url : String) (callback : Callback) (w : Browser)
    (hu : w.parsesUrl url = true) :
    httpGetAsJsonAsync url callback w =
      ({ w with xhrs := w.xhrs ++
          [createdXhr callback [.open "GET" url true, .send none] true 1 0 ""] },
        .normal .undefined) := by
  simp [httpGetAsJsonAsync, Browser.setOnreadystatechange, Browser.xhrOpen, Browser.xhrSend,
    Browser.store, Browser.fire, Handler.call, XMLHttpRequest.new, createdXhr, hu]

/-- With a URL the browser rejects, `open` throws: `httpGetAsJsonAsync` ends
with that error, and the new object has seen neither `open` nor `send`. -/
theorem httpGetAsJsonAsync_eq_rejected (url : String) (callback : Callback) (w : Browser)
    (hu : w.parsesUrl url = false) :
    httpGetAsJsonAsync url callback w =
      ({ w with xhrs := w.xhrs ++ [createdXhr callback [] false 0 0 ""] },
        .throw .domSyntaxError) := by
  simp [httpGetAsJsonAsync, Browser.setOnreadystatechange, Browser.xhrOpen,
    Browser.store, XMLHttpRequest.new, createdXhr, hu]

/-- Whatever the URL, `httpGetAsJsonAsync` leaves one new object carrying the
handler, and nothing else changed. -/
theorem httpGetAsJsonAsync_shape (url : String) (callback : Callback) (w : Browser) :
    ∃ (log : List XhrCall) (flag : Bool) (r0 : Nat),
      (httpGetAsJsonAsync url callback w).1 =
        { w with xhrs := w.xhrs ++ [createdXhr callback log flag r0 0 ""] } := by
  cases hu : w.parsesUrl url with
  | true => exact ⟨_, _, _, by rw [httpGetAsJsonAsync_eq _ _ _ hu]⟩
  | false => exact ⟨_, _, _, by rw [httpGetAsJsonAsync_eq_rejected _ _ _ hu]⟩

theorem readystatechange_at (w : Browser) (callback : Callback) (log : List XhrCall)
    (flag : Bool) (r0 s0 : Nat) (t0 : String) (readyState status : Nat) (responseText : String) :
    Browser.readystatechange { w with xhrs := w.xhrs ++ [createdXhr callback log flag r0 s0 t0] }
        w.xhrs.length readyState status responseText =
      Handler.call { callback := callback }
        (createdXhr callback log flag readyState status responseText)
        { w with xhrs := w.xhrs ++
            [createdXhr callback log flag readyState status responseText] } := by
  simp [Browser.readystatechange, Browser.store, Browser.fire, createdXhr]

theorem Handler.call_not_done (h : Handler) (callback : Callback) (log : List XhrCall)
    (flag : Bool) (readyState status : Nat) (responseText : String) (w : Browser)
    (hr : readyState ≠ 4) :
    h.call (createdXhr callback log flag readyState status responseText) w =
      (w, .normal .undefined) := by
  simp [Handler.call, createdXhr, hr]

theorem Handler.call_not_200 (h : Handler) (callback : Callback) (log : List XhrCall)
    (flag : Bool) (readyState status : Nat) (responseText : String) (w : Browser)
    (hs : status ≠ 200) :
    h.call (createdXhr callback log flag readyState status responseText) w =
      (w, .normal .undefined) := by
  simp [Handler.call, createdXhr, hs]

theorem Handler.call_error (h : Handler) (callback : Callback) (log : List XhrCall)
    (flag : Bool) (responseText : String) (w : Browser) (e : JsError)
    (he : JSON_parse responseText = .error e) :
    h.call (createdXhr callback log flag 4 200 responseText) w =
      ({ w with parses := w.parses ++ [responseText] }, .throw e) := by
  simp [Handler.call, createdXhr, he]

theorem Handler.call_ok (callback : Callback) (log : List XhrCall)
    (flag : Bool) (responseText : String) (w : Browser) (v : JsValue)
    (hv : JSON_parse responseText = .ok v) :
    Handler.call { callback := callback } (createdXhr callback log flag 4 200 responseText) w =
      ({ w with parses := w.parses ++ [responseText], calls := w.calls ++ [v],
                href := (callback v w.href).1 },
        match (callback v w.href).2 with
        | .normal _ => .normal .undefined
        | .throw e => .throw e) := by
  have hd := JSON_parse_defined responseText v hv
  simp only [Handler.call, createdXhr, hv, hd]
  simp only [and_self, if_true, if_false]
  rcases callback v w.href with ⟨h1, c⟩
  cases c <;> rfl

/-! ## The claims -/

/-- C1: when the handler installed by `httpGetAsJsonAsync` runs with readyState
4 and status 200 on a response text that is valid JSON, the callback is invoked
exactly once, its argument is the result of `JSON.parse` on the text, and the
handler completes as the callback does. -/
theorem C1_success_invokes_callback_once (url : String) (callback : Callback) (w : Browser)
    (responseText : String) (v : JsValue) (hv : JSON_parse responseText = .ok v) :
    ((httpGetAsJsonAsync url callback w).1.readystatechange w.xhrs.length 4 200
        responseText).1.calls = (httpGetAsJsonAsync url callback w).1.calls ++ [v] ∧
    ((httpGetAsJsonAsync url callback w).1.readystatechange w.xhrs.length 4 200
        responseText).2 =
      (match (callback v (httpGetAsJsonAsync url callback w).1.href).2 with
       | .normal _ => .normal .undefined
       | .throw e => .throw e) := by
  obtain ⟨log, flag, r0, hs⟩ := httpGetAsJsonAsync_shape url callback w
  rw [hs, readystatechange_at, Handler.call_ok _ _ _ _ _ _ hv]
  exact ⟨rfl, rfl⟩

/-- C1 at the body `{"a":1}`: the callback gets the object `{a: 1}`. -/
theorem C1_success_invokes_callback_once_witness :
    JSON_parse "\x7b\"a\":1\x7d" = .ok (.object [([0x61], .number ⟨false, 1, 0⟩)]) ∧
    ((httpGetAsJsonAsync "/feed.json" idleCallback blankBrowser).1.readystatechange 0 4 200
        "\x7b\"a\":1\x7d").1.calls = [.object [([0x61], .number ⟨false, 1, 0⟩)]] :=
  ⟨rfl, (C1_success_invokes_callback_once "/feed.json" idleCallback blankBrowser
    "\x7b\"a\":1\x7d" _ rfl).1⟩

/-- C2: when the status is not 200, whatever the readyState and the body, the
handler installed by `httpGetAsJsonAsync` does not invoke the callback, does
not call `JSON.parse`, and returns normally. -/
theorem C2_non_200_is_ignored (url : String) (callback : Callback) (w : Browser)
    (readyState status : Nat) (responseText : String) (hs : status ≠ 200) :
    ((httpGetAsJsonAsync url callback w).1.readystatechange w.xhrs.length readyState status
        responseText).1.calls = (httpGetAsJsonAsync url callback w).1.calls ∧
    ((httpGetAsJsonAsync url callback w).1.readystatechange w.xhrs.length readyState status
        responseText).1.parses = (httpGetAsJsonAsync url callback w).1.parses ∧
    ((httpGetAsJsonAsync url callback w).1.readystatechange w.xhrs.length readyState status
        responseText).2 = .normal .undefined := by
  obtain ⟨log, flag, r0, hsh⟩ := httpGetAsJsonAsync_shape url callback w
  rw [hsh, readystatechange_at, Handler.call_not_200 _ _ _ _ _ _ _ _ hs]
  exact ⟨rfl, rfl, rfl⟩

/-- C2 at status 404, readyState 4, with a body that would parse. -/
theorem C2_non_200_is_ignored_witness :
    (404 : Nat) ≠ 200 ∧
    ((httpGetAsJsonAsync "/feed.json" idleCallback blankBrowser).1.readystatechange 0 4 404
        "\x7b\"a\":1\x7d").1.calls = [] :=
  ⟨by decide, (C2_non_200_is_ignored "/feed.json" idleCallback blankBrowser 4 404
    "\x7b\"a\":1\x7d" (by decide)).1⟩

/-- C3 as stated fails: on an empty body with readyState 4 and status 200,
`JSON.parse` does not yield `undefined` and the handler does not return
normally. -/
theorem C3_empty_body_counterexample :
    ¬ (JSON_parse "" = .ok .undefined ∧
       ((httpGetAsJsonAsync "/feed.json" idleCallback blankBrowser).1.readystatechange
          0 4 200 "").1.calls = [] ∧
       ((httpGetAsJsonAsync "/feed.json" idleCallback blankBrowser).1.readystatechange
          0 4 200 "").2 = .normal .undefined) := by
  intro h
  have h2 : ((httpGetAsJsonAsync "/feed.json" idleCallback blankBrowser).1.readystatechange
      0 4 200 "").2 = .throw .syntaxError := rfl
  rw [h2] at h
  exact Completion.noConfusion h.2.2

/-- C3, amended: on an empty body with readyState 4 and status 200,
`JSON.parse` throws a `SyntaxError`, the callback is not invoked, and the
handler installed by `httpGetAsJsonAsync` ends with that uncaught error. -/
theorem C3_empty_body_throws (url : String) (callback : Callback) (w : Browser) :
    JSON_parse "" = .error .syntaxError ∧
    ((httpGetAsJsonAsync url callback w).1.readystatechange w.xhrs.length 4 200 "").1.calls =
      (httpGetAsJsonAsync url callback w).1.calls ∧
    ((httpGetAsJsonAsync url callback w).1.readystatechange w.xhrs.length 4 200 "").2 =
      .throw .syntaxError := by
  have hp : JSON_parse "" = .error .syntaxError := rfl
  obtain ⟨log, flag, r0, hs⟩ := httpGetAsJsonAsync_shape url callback w
  rw [hs, readystatechange_at, Handler.call_error _ _ _ _ _ _ _ hp]
  exact ⟨rfl, rfl, rfl⟩

/-- C4: from every browser state `openEmail` sets `window.location.href` to
exactly `mailto:devs@capscollective.com` and returns `undefined`; it has no
parameter. -/
theorem C4_openEmail_sets_mailto (w : Browser) :
    (openEmail w).1.href = "mailto:devs@capscollective.com" ∧
    (openEmail w).2 = .normal .undefined :=
  ⟨rfl, rfl⟩

/-- C5 as stated fails: with the URL `http://[`, which the browser's URL parser
rejects, `open` throws and `send` is never reached, so no request is
issued. -/
theorem C5_one_get_request_counterexample :
    (httpGetAsJsonAsync "http://[" idleCallback blankBrowser).2 = .throw .domSyntaxError ∧
    ¬ ∃ x : XMLHttpRequest,
      (httpGetAsJsonAsync "http://[" idleCallback blankBrowser).1.xhrs =
        blankBrowser.xhrs ++ [x] ∧
      x.requestCalls = [.open "GET" "http://[" true, .send none] := by
  refine ⟨rfl, ?_⟩
  rintro ⟨x, hx, hc⟩
  rw [httpGetAsJsonAsync_eq_rejected "http://[" idleCallback blankBrowser rfl] at hx
  simp only [blankBrowser, List.nil_append, List.cons.injEq, and_true] at hx
  subst hx
  simp [createdXhr] at hc

/-- C5, amended: for every callback and every URL the browser's URL parser
accepts, `httpGetAsJsonAsync` creates exactly one `XMLHttpRequest`, on which
exactly two request-side calls take effect, in this order: `open` with method
`GET`, the caller's URL unchanged and the asynchronous flag `true`, then `send`
with a `null` body; no `setRequestHeader`; objects created earlier are left as
they were, and the function returns `undefined`. -/
theorem C5_one_get_request (url : String) (callback : Callback) (w : Browser)
    (hu : w.parsesUrl url = true) :
    (∃ x : XMLHttpRequest,
      (httpGetAsJsonAsync url callback w).1.xhrs = w.xhrs ++ [x] ∧
      x.requestCalls = [.open "GET" url true, .send none]) ∧
    (httpGetAsJsonAsync url callback w).2 = .normal .undefined := by
  rw [httpGetAsJsonAsync_eq url callback w hu]
  exact ⟨⟨_, rfl, rfl⟩, rfl⟩

/-- C5 at the URL `/feed.json`. -/
theorem C5_one_get_request_witness :
    blankBrowser.parsesUrl "/feed.json" = true ∧
    (∃ x : XMLHttpRequest,
      (httpGetAsJsonAsync "/feed.json" idleCallback blankBrowser).1.xhrs =
        blankBrowser.xhrs ++ [x] ∧
      x.requestCalls = [.open "GET" "/feed.json" true, .send none]) :=
  ⟨rfl, (C5_one_get_request "/feed.json" idleCallback blankBrowser rfl).1⟩

/-- C6: with readyState 4 and status 200 and a body that is not valid JSON, the
handler installed by `httpGetAsJsonAsync` does not invoke the callback; the
error of `JSON.parse` is not caught: the handler ends with it. -/
theorem C6_invalid_json_not_reported (url : String) (callback : Callback) (w : Browser)
    (responseText : String) (e : JsError) (he : JSON_parse responseText = .error e) :
    ((httpGetAsJsonAsync url callback w).1.readystatechange w.xhrs.length 4 200
        responseText).1.calls = (httpGetAsJsonAsync url callback w).1.calls ∧
    ((httpGetAsJsonAsync url callback w).1.readystatechange w.xhrs.length 4 200
        responseText).2 = .throw e := by
  obtain ⟨log, flag, r0, hs⟩ := httpGetAsJsonAsync_shape url callback w
  rw [hs, readystatechange_at, Handler.call_error _ _ _ _ _ _ _ he]
  exact ⟨rfl, rfl⟩

/-- C6 at the body `<html>`. -/
theorem C6_invalid_json_not_reported_witness :
    JSON_parse "<html>" = .error .syntaxError ∧
    ((httpGetAsJsonAsync "/feed.json" idleCallback blankBrowser).1.readystatechange 0 4 200
        "<html>").1.calls = [] ∧
    ((httpGetAsJsonAsync "/feed.json" idleCallback blankBrowser).1.readystatechange 0 4 200
        "<html>").2 = .throw .syntaxError :=
  ⟨rfl, C6_invalid_json_not_reported "/feed.json" idleCallback blankBrowser "<html>"
    .syntaxError rfl⟩

/-- C7 as stated fails: over the events with readyState 1, 2, 3, 4 and status
200 whose terminal body is empty, the callback is not invoked at all. -/
theorem C7_only_terminal_event_delivers_counterexample :
    ¬ ∃ v : JsValue,
      ((httpGetAsJsonAsync "/feed.json" idleCallback blankBrowser).1.progress 0
          [(1, 200, ""), (2, 200, ""), (3, 200, ""), (4, 200, "")]).calls =
        (httpGetAsJsonAsync "/feed.json" idleCallback blankBrowser).1.calls ++ [v] := by
  rintro ⟨v, hv⟩
  have h0 : ((httpGetAsJsonAsync "/feed.json" idleCallback blankBrowser).1.progress 0
      [(1, 200, ""), (2, 200, ""), (3, 200, ""), (4, 200, "")]).calls = [] := rfl
  have h1 : (httpGetAsJsonAsync "/feed.json" idleCallback blankBrowser).1.calls = [] := rfl
  rw [h0, h1] at hv
  simp at hv

/-- C7, amended: a `readystatechange` event whose readyState is not 4 never
makes the handler installed by `httpGetAsJsonAsync` invoke the callback or
parse, whatever the status and the body; so over the events with readyState 1,
2, 3, 4 and status 200 the callback is invoked at the terminal event only:
exactly once, with the value of the terminal body, when that body is valid
JSON, and not at all when it is not. -/
theorem C7_only_terminal_event_delivers (url : String) (callback : Callback) (w : Browser)
    (readyState status : Nat) (responseText b1 b2 b3 b4 : String)
    (hr : readyState ≠ 4) :
    (((httpGetAsJsonAsync url callback w).1.readystatechange w.xhrs.length readyState status
        responseText).1.calls = (httpGetAsJsonAsync url callback w).1.calls ∧
     ((httpGetAsJsonAsync url callback w).1.readystatechange w.xhrs.length readyState status
        responseText).1.parses = (httpGetAsJsonAsync url callback w).1.parses ∧
     ((httpGetAsJsonAsync url callback w).1.readystatechange w.xhrs.length readyState status
        responseText).2 = .normal .undefined) ∧
    ((httpGetAsJsonAsync url callback w).1.progress w.xhrs.length
        [(1, 200, b1), (2, 200, b2), (3, 200, b3)]).calls =
      (httpGetAsJsonAsync url callback w).1.calls ∧
    ((httpGetAsJsonAsync url callback w).1.progress w.xhrs.length
        [(1, 200, b1), (2, 200, b2), (3, 200, b3), (4, 200, b4)]).calls =
      (httpGetAsJsonAsync url callback w).1.calls ++
        (match JSON_parse b4 with
         | .ok v => [v]
         | .error _ => []) := by
  obtain ⟨log, flag, r0, hs⟩ := httpGetAsJsonAsync_shape url callback w
  rw [hs]
  refine ⟨?_, ?_, ?_⟩
  · rw [readystatechange_at, Handler.call_not_done _ _ _ _ _ _ _ _ hr]
    exact ⟨rfl, rfl, rfl⟩
  · simp only [Browser.progress]
    rw [readystatechange_at, Handler.call_not_done _ _ _ _ _ _ _ _ (by decide)]
    simp only
    rw [readystatechange_at, Handler.call_not_done _ _ _ _ _ _ _ _ (by decide)]
    simp only
    rw [readystatechange_at, Handler.call_not_done _ _ _ _ _ _ _ _ (by decide)]
  · simp only [Browser.progress]
    rw [readystatechange_at, Handler.call_not_done _ _ _ _ _ _ _ _ (by decide)]
    simp only
    rw [readystatechange_at, Handler.call_not_done _ _ _ _ _ _ _ _ (by decide)]
    simp only
    rw [readystatechange_at, Handler.call_not_done _ _ _ _ _ _ _ _ (by decide)]
    simp only
    rw [readystatechange_at]
    cases hp : JSON_parse b4 with
    | error e =>
      rw [Handler.call_error _ _ _ _ _ _ _ hp]
      simp
    | ok v =>
      rw [Handler.call_ok _ _ _ _ _ _ hp]

/-- C7 at a readyState 3 event with status 200 and a body that would parse,
and at the event sequence 1, 2, 3, 4 ending in the body `{"a":1}`. -/
theorem C7_only_terminal_event_delivers_witness :
    (3 : Nat) ≠ 4 ∧
    ((httpGetAsJsonAsync "/feed.json" idleCallback blankBrowser).1.readystatechange 0 3 200
        "[1]").1.calls = [] ∧
    ((httpGetAsJsonAsync "/feed.json" idleCallback blankBrowser).1.progress 0
        [(1, 200, ""), (2, 200, ""), (3, 200, "\x7b\"a\""), (4, 200, "\x7b\"a\":1\x7d")]).calls =
      [.object [([0x61], .number ⟨false, 1, 0⟩)]] :=
  ⟨by decide,
   (C7_only_terminal_event_delivers "/feed.json" idleCallback blankBrowser 3 200 "[1]" "" ""
      "\x7b\"a\"" "\x7b\"a\":1\x7d" (by decide)).1.1,
   (C7_only_terminal_event_delivers "/feed.json" idleCallback blankBrowser 3 200 "[1]" "" ""
      "\x7b\"a\"" "\x7b\"a\":1\x7d" (by decide)).2.2⟩

/-- C8 as stated fails: with a callback that redirects, as `openEmail` does, a
run of the handler installed by `httpGetAsJsonAsync` changes the navigation
target. -/
theorem C8_functions_independent_counterexample :
    ¬ (((httpGetAsJsonAsync "/feed.json" redirectingCallback blankBrowser).1.readystatechange
          0 4 200 "0").1.href = blankBrowser.href) := by
  have h : ((httpGetAsJsonAsync "/feed.json" redirectingCallback blankBrowser).1.readystatechange
      0 4 200 "0").1.href = "mailto:devs@capscollective.com" := rfl
  rw [h]
  decide

/-- C8, amended: `openEmail` creates no request, invokes no callback and parses
nothing; `httpGetAsJsonAsync` itself leaves the navigation target alone, and
its handler changes it only through the caller's callback: after an event that
does not invoke the callback the target is what it was, after one that does it
is the target the callback leaves; the two functions commute: either order of
calling them gives the same browser state and the same completion of
`httpGetAsJsonAsync`. -/
theorem C8_functions_independent (url : String) (callback : Callback) (w : Browser)
    (readyState status : Nat) (responseText : String) :
    ((openEmail w).1.xhrs = w.xhrs ∧ (openEmail w).1.calls = w.calls ∧
      (openEmail w).1.parses = w.parses) ∧
    ((httpGetAsJsonAsync url callback w).1.href = w.href ∧
      ((httpGetAsJsonAsync url callback w).1.readystatechange w.xhrs.length readyState status
          responseText).1.href =
        (if readyState = 4 ∧ status = 200 then
          (match JSON_parse responseText with
           | .ok v => (callback v w.href).1
           | .error _ => w.href)
         else w.href)) ∧
    ((httpGetAsJsonAsync url callback (openEmail w).1).1 =
        (openEmail (httpGetAsJsonAsync url callback w).1).1 ∧
      (httpGetAsJsonAsync url callback (openEmail w).1).2 =
        (httpGetAsJsonAsync url callback w).2) := by
  refine ⟨⟨rfl, rfl, rfl⟩, ?_, ?_⟩
  · obtain ⟨log, flag, r0, hs⟩ := httpGetAsJsonAsync_shape url callback w
    rw [hs, readystatechange_at]
    refine ⟨rfl, ?_⟩
    by_cases hg : readyState = 4 ∧ status = 200
    · obtain ⟨rfl, rfl⟩ := hg
      cases hp : JSON_parse responseText with
      | error e =>
        rw [Handler.call_error _ _ _ _ _ _ _ hp]
        simp
      | ok v =>
        rw [Handler.call_ok _ _ _ _ _ _ hp]
        simp
    · simp only [Handler.call, createdXhr, hg, if_false]
  · cases hu : w.parsesUrl url with
    | true =>
      have hu2 : (openEmail w).1.parsesUrl url = true := hu
      rw [httpGetAsJsonAsync_eq _ _ _ hu, httpGetAsJsonAsync_eq _ _ _ hu2]
      exact ⟨rfl, rfl⟩
    | false =>
      have hu2 : (openEmail w).1.parsesUrl url = false := hu
      rw [httpGetAsJsonAsync_eq_rejected _ _ _ hu, httpGetAsJsonAsync_eq_rejected _ _ _ hu2]
      exact ⟨rfl, rfl⟩

/-- C9: `JSON.parse` either throws a `SyntaxError` or yields a value whose
`typeof` is not `undefined`, so the guard never fires: with readyState 4 and
status 200 the handler installed by `httpGetAsJsonAsync` invokes the callback
if and only if the response text parses. -/
theorem C9_undefined_guard_unreachable (url : String) (callback : Callback) (w : Browser)
    (responseText : String) :
    (JSON_parse responseText = .error .syntaxError ∨
      ∃ v, JSON_parse responseText = .ok v ∧ typeof v ≠ "undefined") ∧
    ((∃ v, ((httpGetAsJsonAsync url callback w).1.readystatechange w.xhrs.length 4 200
          responseText).1.calls = (httpGetAsJsonAsync url callback w).1.calls ++ [v]) ↔
      ∃ v, JSON_parse responseText = .ok v) := by
  obtain ⟨log, flag, r0, hs⟩ := httpGetAsJsonAsync_shape url callback w
  rw [hs, readystatechange_at]
  cases hp : JSON_parse responseText with
  | error e =>
    have he := JSON_parse_error _ _ hp
    subst he
    refine ⟨Or.inl rfl, ?_⟩
    rw [Handler.call_error _ _ _ _ _ _ _ hp]
    simp
  | ok v =>
    have hd := JSON_parse_defined _ _ hp
    refine ⟨Or.inr ⟨v, rfl, hd⟩, ?_⟩
    rw [Handler.call_ok _ _ _ _ _ _ hp]
    exact ⟨fun _ => ⟨v, rfl⟩, fun _ => ⟨v, rfl⟩⟩

/-- C10: with readyState 4 and status 200, every body that parses to a falsy
value (`null`, `false`, a number that is zero, the empty string) is delivered:
the handler installed by `httpGetAsJsonAsync` invokes the callback exactly
once, with that value, and completes as the callback does. -/
theorem C10_falsy_values_delivered (url : String) (callback : Callback) (w : Browser)
    (responseText : String) (v : JsValue) (hv : JSON_parse responseText = .ok v)
    (hf : falsy v = true) :
    (v = .null ∨ v = .bool false ∨ (∃ n, v = .number n) ∨ v = .string []) ∧
    ((httpGetAsJsonAsync url callback w).1.readystatechange w.xhrs.length 4 200
        responseText).1.calls = (httpGetAsJsonAsync url callback w).1.calls ++ [v] ∧
    ((httpGetAsJsonAsync url callback w).1.readystatechange w.xhrs.length 4 200
        responseText).2 =
      (match (callback v (httpGetAsJsonAsync url callback w).1.href).2 with
       | .normal _ => .normal .undefined
       | .throw e => .throw e) := by
  have hd := JSON_parse_defined _ _ hv
  refine ⟨?_, ?_⟩
  · cases v with
    | undefined => simp [typeof] at hd
    | null => simp
    | bool b => cases b <;> simp [falsy] at hf ⊢
    | number n => simp
    | string s => cases s <;> simp [falsy] at hf ⊢
    | array xs => simp [falsy] at hf
    | object ps => simp [falsy] at hf
  · obtain ⟨log, flag, r0, hs⟩ := httpGetAsJsonAsync_shape url callback w
    rw [hs, readystatechange_at, Handler.call_ok _ _ _ _ _ _ hv]
    exact ⟨rfl, rfl⟩

/-- C10 at the bodies `null`, `false`, `0`, `""`, and at `-0`, `0.0`, ` 0`
and `1e-400`, other spellings of a number that is zero. -/
theorem C10_falsy_values_delivered_witness :
    ((httpGetAsJsonAsync "/feed.json" idleCallback blankBrowser).1.readystatechange 0 4 200
        "null").1.calls = [.null] ∧
    ((httpGetAsJsonAsync "/feed.json" idleCallback blankBrowser).1.readystatechange 0 4 200
        "false").1.calls = [.bool false] ∧
    ((httpGetAsJsonAsync "/feed.json" idleCallback blankBrowser).1.readystatechange 0 4 200
        "0").1.calls = [.number ⟨false, 0, 0⟩] ∧
    ((httpGetAsJsonAsync "/feed.json" idleCallback blankBrowser).1.readystatechange 0 4 200
        "\"\"").1.calls = [.string []] ∧
    ((httpGetAsJsonAsync "/feed.json" idleCallback blankBrowser).1.readystatechange 0 4 200
        "-0").1.calls = [.number ⟨true, 0, 0⟩] ∧
    ((httpGetAsJsonAsync "/feed.json" idleCallback blankBrowser).1.readystatechange 0 4 200
        "0.0").1.calls = [.number ⟨false, 0, -1⟩] ∧
    ((httpGetAsJsonAsync "/feed.json" idleCallback blankBrowser).1.readystatechange 0 4 200
        " 0").1.calls = [.number ⟨false, 0, 0⟩] ∧
    ((httpGetAsJsonAsync "/feed.json" idleCallback blankBrowser).1.readystatechange 0 4 200
        "1e-400").1.calls = [.number ⟨false, 1, -400⟩] :=
  ⟨(C10_falsy_values_delivered "/feed.json" idleCallback blankBrowser "null" _ rfl rfl).2.1,
   (C10_falsy_values_delivered "/feed.json" idleCallback blankBrowser "false" _ rfl rfl).2.1,
   (C10_falsy_values_delivered "/feed.json" idleCallback blankBrowser "0" _ rfl rfl).2.1,
   (C10_falsy_values_delivered "/feed.json" idleCallback blankBrowser "\"\"" _ rfl rfl).2.1,
   (C10_falsy_values_delivered "/feed.json" idleCallback blankBrowser "-0" _ rfl rfl).2.1,
   (C10_falsy_values_delivered "/feed.json" idleCallback blankBrowser "0.0" _ rfl rfl).2.1,
   (C10_falsy_values_delivered "/feed.json" idleCallback blankBrowser " 0" _ rfl rfl).2.1,
   (C10_falsy_values_delivered "/feed.json" idleCallback blankBrowser "1e-400" _ rfl
      (by decide)).2.1⟩

end Blog
